import Mathlib

/-!
Verification of the Eloquence interpreter core (lexer → parser → tree-walking
evaluator, Go implementation) against its natural-language specification.

The development shallowly embeds the fragments of the source that the claims
under examination depend on:

* `token`/`parser` (parser/parser.go): the operator-precedence table and the
  Pratt expression parser over the token alphabet appearing in that table,
  restricted to the expression sub-grammar of identifiers, integer literals,
  prefix minus, grouping, word infix operators, calls, indexing and field
  access.  Parse failures (which the Go parser records in an error list while
  returning nil nodes) are modelled as `none` results.
* `object` (object/object.go, object/environment.go, object/builtins.go):
  runtime values with their type tags and hash keys, the scope-chain
  environment, and the builtin registry.  Because the Go
  environments are mutable and aliased (closures and pointers hold references
  to specific scopes), environments are modelled as indices into a heap, a
  list of `EnvData` records; `NewEnclosedEnvironment` appends a record.
* `evaluator` (evaluator/evaluator.go): the complete recursive evaluator for
  the statement and expression forms the claims mention.  The Go functions
  are translated one to one; recursion is made total with a fuel parameter
  (`EvalResult.fuelOut` marks exhaustion and is an artifact of the
  embedding, reachable only when the fuel chosen for a theorem is too
  small).  A Go runtime panic — the unguarded 64-bit remainder in
  `evalIntegerInfix` — is modelled as the distinguished outcome
  `EvalResult.hostPanic`.

Go `int64` arithmetic wraps; `wrap64` applies the two's-complement reduction
after every arithmetic operation.  Node kinds that no claim mentions
(`ShowStatement`, `IncludeStatement`, `CharLiteral` as an expression form,
map literals) are omitted from the embedded AST; the `Obj` value universe is
complete so that type-dispatch in the infix rules matches the source.
-/

set_option maxRecDepth 4000

namespace Eloquence

/-! ## Abstract syntax (ast package, as built by parser/parser.go) -/

mutual
/-- Expression nodes of the embedded AST fragment. -/
inductive Expr where
  | ident (name : String)
  | intLit (v : Int)
  | boolLit (b : Bool)
  | strLit (s : String)
  | nilLit
  | prefixE (op : String) (right : Expr)
  | infixE (op : String) (left : Expr) (right : Expr)
  | ifE (cond : Expr) (cons : List Stmt) (alt : Option (List Stmt))
  | funcLit (params : List String) (body : List Stmt)
  | call (fn : Expr) (args : List Expr)
  | indexE (left : Expr) (idx : Expr)
  | arrayLit (elems : List Expr)
  | fieldAccess (obj : Expr) (field : String)
  | structInst (name : String) (fields : List (String × Expr))
  | ptrRef (operand : Expr)
  | ptrDeref (operand : Expr)
/-- Statement nodes of the embedded AST fragment. -/
inductive Stmt where
  | assign (name : String) (value : Expr)
  | ptrAssign (name : String) (value : Expr)
  | ret (value : Expr)
  | exprStmt (e : Expr)
  | blockStmt (stmts : List Stmt)
  | loop (cond : Expr) (body : List Stmt)
  | rangeLoop (iter : String) (iterable : Expr) (body : List Stmt)
  | structDef (name : String) (fields : List String)
  | tryCatch (tryB : List Stmt) (catchB : Option (List Stmt)) (finB : Option (List Stmt))
end

/-! ## Runtime values (object package) -/

/-- Map key digest (object/object.go `HashKey`): the pair of the type tag
and a 64-bit digest. -/
structure HashKey where
  typeTag : String
  hval : Nat
deriving DecidableEq, Repr

/-- Runtime values (object package).  Environments are heap indices (`Nat`).
The `builtin` payload identifies a registry entry by name: the Go `Builtin`
carries a native function pointer, and the evaluator under verification
never invokes it (`applyFunction` accepts only `Function` values), so the
name determines the value for every execution the claims quantify over. -/
inductive Obj where
  | integer (v : Int)
  | float (v : Float)
  | boolean (b : Bool)
  | str (s : String)
  | char (c : Char)
  | null
  | array (elems : List Obj)
  | mapO (pairs : List (HashKey × Obj × Obj))
  | function (params : List String) (body : List Stmt) (env : Nat)
  | structDefO (name : String) (fields : List String)
  | structInstO (defName : String) (defFields : List String) (fields : List (String × Obj))
  | pointer (name : String) (env : Nat)
  | returnValue (v : Obj)
  | error (msg : String)
  | builtin (name : String)

/-- Type of each object (object/object.go): the `Type()` method of every
variant, returning the `ObjectType` string constants of the source
(`INTEGER_OBJ = "INTEGER"`, ..., `STRUCT_DEF_OBJ = "STRUCT_DEFINITION"`,
`STRUCT_INST_OBJ = "STRUCT_INSTANCE"`, `BUILTIN_OBJ = "BUILTIN"`). -/
def objType : Obj → String
  | .integer _ => "INTEGER"
  | .float _ => "FLOAT"
  | .boolean _ => "BOOLEAN"
  | .str _ => "STRING"
  | .char _ => "CHAR"
  | .null => "NULL"
  | .array _ => "ARRAY"
  | .mapO _ => "MAP"
  | .function _ _ _ => "FUNCTION"
  | .structDefO _ _ => "STRUCT_DEFINITION"
  | .structInstO _ _ _ => "STRUCT_INSTANCE"
  | .pointer _ _ => "POINTER"
  | .returnValue _ => "RETURN_VALUE"
  | .error _ => "ERROR"
  | .builtin _ => "BUILTIN"

/-- isError (evaluator.go): an object is an error when its type tag is
`ERROR`.  The Go nil-interface case cannot arise in the embedding. -/
def isError (o : Obj) : Bool := objType o == "ERROR"

/-- isTruthy (evaluator.go): the Go code compares against the `NULL` and
`FALSE` singletons; Booleans are produced exclusively through `nativeBool`,
so identity with the singletons coincides with the payload. -/
def isTruthy : Obj → Bool
  | .null => false
  | .boolean false => false
  | _ => true

/-- nativeBool (evaluator.go): selects the shared TRUE or FALSE singleton. -/
def nativeBool (b : Bool) : Obj := .boolean b

/-! ## Environments (object/environment.go)

A Go `*Environment` is mutable and aliased, so the embedding stores every
environment in a heap (a list indexed by creation order) and passes indices
around.  `outer` is the index of the enclosing scope. -/

/-- Scope record: local bindings plus the optional enclosing scope. -/
structure EnvData where
  store : List (String × Obj)
  outer : Option Nat

/-- Heap of all environments created so far, indexed by `Nat`. -/
abbrev State := List EnvData

/-- Go map read (first match wins; `setVar`/`mapSetStr` prepend, so the
newest binding for a key shadows stale entries, giving map-update
semantics). -/
def mapGetStr : List (String × Obj) → String → Option Obj
  | [], _ => none
  | (k, v) :: rest, key => if k = key then some v else mapGetStr rest key

/-- Go map write for string-keyed maps, as update-by-prepend. -/
def mapSetStr (m : List (String × Obj)) (k : String) (v : Obj) : List (String × Obj) :=
  (k, v) :: m

/-- NewEnvironment (environment.go): the root state holds the single global
scope at index 0. -/
def initState : State := [⟨[], none⟩]

/-- NewEnclosedEnvironment (environment.go): appends a fresh empty scope
whose outer link is `outer`; the new index is returned. -/
def newEnclosedEnvironment (st : State) (outer : Nat) : State × Nat :=
  (st ++ [⟨[], some outer⟩], st.length)

/-- Get (environment.go), chain walk with explicit fuel.  Outer chains built
by `newEnclosedEnvironment` are acyclic with indices decreasing toward the
root, so `st.length + 1` steps always suffice (see `getVar`). -/
def getVarAux (st : State) : Nat → Nat → String → Option Obj
  | 0, _, _ => none
  | fuel + 1, e, name =>
    match st[e]? with
    | none => none
    | some ed =>
      match mapGetStr ed.store name with
      | some v => some v
      | none =>
        match ed.outer with
        | none => none
        | some o => getVarAux st fuel o name

/-- Get (environment.go): nearest binding along the outer chain. -/
def getVar (st : State) (e : Nat) (name : String) : Option Obj :=
  getVarAux st (st.length + 1) e name

/-- Set (environment.go): writes unconditionally into the named scope.  The
`none` branch (a dangling index) is unreachable for indices produced by
`newEnclosedEnvironment` and `initState`. -/
def setVar (st : State) (e : Nat) (name : String) (v : Obj) : State :=
  match st[e]? with
  | none => st
  | some ed => st.set e ⟨mapSetStr ed.store name v, ed.outer⟩

/-- Resolve (environment.go), chain walk with explicit fuel. -/
def resolveVarAux (st : State) : Nat → Nat → String → Option Nat
  | 0, _, _ => none
  | fuel + 1, e, name =>
    match st[e]? with
    | none => none
    | some ed =>
      if (mapGetStr ed.store name).isSome then some e
      else
        match ed.outer with
        | none => none
        | some o => resolveVarAux st fuel o name

/-- Resolve (environment.go): the scope in which `name` is defined. -/
def resolveVar (st : State) (e : Nat) (name : String) : Option Nat :=
  resolveVarAux st (st.length + 1) e name

/-! ## Builtin registry (object/builtins.go) -/

/-- Builtins (object/builtins.go): the fixed ordered registry.  Native
function payloads are identified by their registry name, see `Obj.builtin`. -/
def Builtins : List (String × Obj) :=
  [("show", .builtin "show"), ("count", .builtin "count"),
   ("append", .builtin "append"), ("ask", .builtin "ask"),
   ("upper", .builtin "upper"), ("lower", .builtin "lower"),
   ("split", .builtin "split"), ("join", .builtin "join"),
   ("str", .builtin "str")]

/-- GetBuiltin (object/builtins.go): linear search of the registry. -/
def GetBuiltin (name : String) : Option Obj :=
  (Builtins.find? (fun d => d.1 == name)).map Prod.snd

/-! ## Pure evaluation helpers (evaluator.go) -/

/-- Two's-complement reduction of Go `int64` arithmetic. -/
def wrap64 (x : Int) : Int := (x + 2 ^ 63) % 2 ^ 64 - 2 ^ 63

/-- newError helper for the cross-type message (evaluator.go builds it
inline with `newError("type mismatch: %s %s %s", ...)`). -/
def typeMismatch (l r : Obj) (op : String) : Obj :=
  .error ("type mismatch: " ++ objType l ++ " " ++ op ++ " " ++ objType r)

/-- evalIntegerInfix (evaluator.go).  `divides` guards a zero divisor and
produces the `division by zero` error; `modulo` computes `l % r` unguarded,
which in Go panics at runtime when `r` is zero — modelled as `none`.
`Int.tdiv`/`Int.tmod` are the truncated division and remainder of Go. -/
def evalIntegerInfix (op : String) (l r : Int) : Option Obj :=
  match op with
  | "adds" => some (.integer (wrap64 (l + r)))
  | "subtracts" | "minus" | "-" => some (.integer (wrap64 (l - r)))
  | "times" => some (.integer (wrap64 (l * r)))
  | "divides" =>
    if r = 0 then some (.error "division by zero")
    else some (.integer (wrap64 (Int.tdiv l r)))
  | "modulo" =>
    if r = 0 then none
    else some (.integer (wrap64 (Int.tmod l r)))
  | "equals" => some (nativeBool (decide (l = r)))
  | "not_equals" => some (nativeBool (decide (l ≠ r)))
  | "greater" => some (nativeBool (decide (l > r)))
  | "less" => some (nativeBool (decide (l < r)))
  | "greater_equal" => some (nativeBool (decide (l ≥ r)))
  | "less_equal" => some (nativeBool (decide (l ≤ r)))
  | _ => some (.error ("unknown operator: INTEGER " ++ op ++ " INTEGER"))

/-- evalFloatInfix (evaluator.go): same operator set minus `modulo`;
division is the IEEE operation, unguarded. -/
def evalFloatInfix (op : String) (l r : Float) : Obj :=
  match op with
  | "adds" => .float (l + r)
  | "subtracts" | "minus" | "-" => .float (l - r)
  | "times" => .float (l * r)
  | "divides" => .float (l / r)
  | "equals" => nativeBool (l == r)
  | "not_equals" => nativeBool (l != r)
  | "greater" => nativeBool (decide (l > r))
  | "less" => nativeBool (decide (l < r))
  | "greater_equal" => nativeBool (decide (l ≥ r))
  | "less_equal" => nativeBool (decide (l ≤ r))
  | _ => .error ("unknown operator: FLOAT " ++ op ++ " FLOAT")

/-- evalStringInfix (evaluator.go). -/
def evalStringInfix (op : String) (l r : String) : Obj :=
  match op with
  | "adds" => .str (l ++ r)
  | "equals" => nativeBool (decide (l = r))
  | "not_equals" => nativeBool (decide (l ≠ r))
  | _ => .error ("unknown operator: STRING " ++ op ++ " STRING")

/-- evalBooleanInfix (evaluator.go). -/
def evalBooleanInfix (op : String) (l r : Bool) : Obj :=
  match op with
  | "equals" => nativeBool (l == r)
  | "not_equals" => nativeBool (l != r)
  | "and" => nativeBool (l && r)
  | "or" => nativeBool (l || r)
  | _ => .error ("unknown operator: BOOLEAN " ++ op ++ " BOOLEAN")

/-- Same-type dispatch of evalInfixExpression (evaluator.go): the
`switch left.Type()` that follows the cross-type guard, with the final
unknown-operator fallthrough. -/
def evalInfixSameType (op : String) (l r : Obj) : Option Obj :=
  match l, r with
  | .integer a, .integer b => evalIntegerInfix op a b
  | .float a, .float b => some (evalFloatInfix op a b)
  | .str a, .str b => some (evalStringInfix op a b)
  | .boolean a, .boolean b => some (evalBooleanInfix op a b)
  | .null, .null =>
    if op = "equals" then some (nativeBool true)
    else if op = "not_equals" then some (nativeBool false)
    else some (.error ("unknown operator: NULL " ++ op ++ " NULL"))
  | _, _ => some (.error ("unknown operator: " ++ objType l ++ " " ++ op ++ " " ++ objType r))

/-- evalInfixExpression (evaluator.go): differing operand types allow only
`equals`/`not_equals` when one side is `NULL` (yielding the shared FALSE or
TRUE singleton) and otherwise produce the type-mismatch error; matching
types fall through to the `switch left.Type()` dispatch, embedded as
`evalInfixSameType`. -/
def evalInfixExpression (op : String) (l r : Obj) : Option Obj :=
  if objType l ≠ objType r then
    if objType l = "NULL" ∨ objType r = "NULL" then
      if op = "equals" then some (nativeBool false)
      else if op = "not_equals" then some (nativeBool true)
      else some (typeMismatch l r op)
    else some (typeMismatch l r op)
  else evalInfixSameType op l r

/-- evalMinusPrefix (evaluator.go). -/
def evalMinusPrefix (right : Obj) : Obj :=
  match right with
  | .integer v => .integer (wrap64 (-v))
  | .float v => .float (-v)
  | _ => .error ("unknown operator: -" ++ objType right)

/-- evalPrefixExpression (evaluator.go). -/
def evalPrefixExpression (op : String) (right : Obj) : Obj :=
  match op with
  | "!" => nativeBool (!(isTruthy right))
  | "-" | "minus" => evalMinusPrefix right
  | _ => .error ("unknown operator: " ++ op ++ objType right)

/-- FNV-1a 64-bit digest of the UTF-8 bytes of a string (object/object.go
`String.HashKey` via `hash/fnv.New64a`): offset basis 14695981039346656037,
prime 1099511628211, reduced to 64 bits at each step. -/
def fnv1a (s : String) : Nat :=
  s.toUTF8.toList.foldl
    (fun h b => ((h ^^^ b.toNat) * 1099511628211) % 2 ^ 64)
    14695981039346656037

/-- HashKey methods (object/object.go): Integers reinterpret the
two's-complement value as an unsigned 64-bit digest, Booleans map to 1 or
0, Strings use FNV-1a; every other variant is not hashable. -/
def hashKeyOf : Obj → Option HashKey
  | .integer v => some ⟨"INTEGER", (v % 2 ^ 64).toNat⟩
  | .boolean b => some ⟨"BOOLEAN", if b then 1 else 0⟩
  | .str s => some ⟨"STRING", fnv1a s⟩
  | _ => none

/-- Map read by hash key (Go map access on `Pairs`). -/
def mapGetHK : List (HashKey × Obj × Obj) → HashKey → Option (Obj × Obj)
  | [], _ => none
  | (k, pr) :: rest, key => if k = key then some pr else mapGetHK rest key

/-- evalArrayIndex (evaluator.go): indices outside `[0, len-1]` yield NULL;
the guard makes the lookup in the other branch always in bounds. -/
def evalArrayIndex (elems : List Obj) (idx : Int) : Obj :=
  if idx < 0 ∨ idx > (elems.length : Int) - 1 then .null
  else (elems.get? idx.toNat).getD .null

/-- evalMapIndex (evaluator.go). -/
def evalMapIndex (pairs : List (HashKey × Obj × Obj)) (index : Obj) : Obj :=
  match hashKeyOf index with
  | none => .error ("unusable as map key: " ++ objType index)
  | some hk =>
    match mapGetHK pairs hk with
    | some pr => pr.2
    | none => .null

/-- evalIndexExpression (evaluator.go): the ARRAY-with-INTEGER and MAP
cases, then the unsupported-type error. -/
def evalIndexExpression (l i : Obj) : Obj :=
  match l, i with
  | .array elems, .integer idx => evalArrayIndex elems idx
  | .mapO pairs, _ => evalMapIndex pairs i
  | _, _ => .error ("index operator not supported: " ++ objType l)

/-! ## The recursive evaluator (evaluator.go `Eval` and helpers)

The Go `Eval` is one switch over the dynamic node type; the embedding splits
it into `evalExpr`/`evalStmt` by syntactic class, keeping every case body a
one-to-one translation.  Each function consumes one unit of fuel per call. -/

/-- Outcome of an evaluation step: a value together with the updated
environment heap, a Go runtime panic, or fuel exhaustion (an artifact of
the embedding, never produced when the fuel is large enough). -/
inductive EvalResult where
  | ok (v : Obj) (st : State)
  | hostPanic
  | fuelOut

/-- Outcome of `evalExpressions` (a Go `[]Object` result). -/
inductive ListResult where
  | ok (vs : List Obj) (st : State)
  | hostPanic
  | fuelOut

/-- Parameter binding in applyFunction (evaluator.go): positional, extra
parameters stay unbound, extra arguments are dropped. -/
def bindParams (st : State) (e : Nat) : List String → List Obj → State
  | [], _ => st
  | _ :: _, [] => st
  | p :: ps, a :: rest => bindParams (setVar st e p a) e ps rest

set_option maxHeartbeats 4000000 in
mutual
/-- Eval (evaluator.go), expression cases. -/
def evalExpr : Nat → Expr → Nat → State → EvalResult
  | 0, _, _, _ => .fuelOut
  | fuel + 1, e, env, st =>
    match e with
    | .ident name =>
      -- evalIdentifier: environment lookup, otherwise the error (there is
      -- no consultation of the builtin registry in evaluator.go)
      match getVar st env name with
      | some v => .ok v st
      | none => .ok (.error ("identifier not found: " ++ name)) st
    | .intLit v => .ok (.integer v) st
    | .boolLit b => .ok (nativeBool b) st
    | .strLit s => .ok (.str s) st
    | .nilLit => .ok .null st
    | .prefixE op right =>
      match evalExpr fuel right env st with
      | .ok r st1 =>
        if isError r then .ok r st1 else .ok (evalPrefixExpression op r) st1
      | other => other
    | .infixE op cl cr =>
      match evalExpr fuel cl env st with
      | .ok lv st1 =>
        if isError lv then .ok lv st1
        else
          match evalExpr fuel cr env st1 with
          | .ok rv st2 =>
            if isError rv then .ok rv st2
            else
              match evalInfixExpression op lv rv with
              | some v => .ok v st2
              | none => .hostPanic
          | other => other
      | other => other
    | .ifE cond cons alt => evalIfExpression fuel cond cons alt env st
    | .funcLit params body => .ok (.function params body env) st
    | .call fn args =>
      match evalExpr fuel fn env st with
      | .ok f st1 =>
        if isError f then .ok f st1
        else
          match evalExpressions fuel args env st1 with
          | .ok argv st2 =>
            if argv.length == 1 && isError (argv.headD .null) then
              .ok (argv.headD .null) st2
            else applyFunction fuel f argv st2
          | .hostPanic => .hostPanic
          | .fuelOut => .fuelOut
      | other => other
    | .indexE left idx =>
      match evalExpr fuel left env st with
      | .ok lv st1 =>
        if isError lv then .ok lv st1
        else
          match evalExpr fuel idx env st1 with
          | .ok iv st2 =>
            if isError iv then .ok iv st2
            else .ok (evalIndexExpression lv iv) st2
          | other => other
      | other => other
    | .arrayLit elems =>
      match evalExpressions fuel elems env st with
      | .ok vs st1 =>
        if vs.length == 1 && isError (vs.headD .null) then
          .ok (vs.headD .null) st1
        else .ok (.array vs) st1
      | .hostPanic => .hostPanic
      | .fuelOut => .fuelOut
    | .fieldAccess obj field => evalFieldAccess fuel obj field env st
    | .structInst name fields => evalStructInstantiation fuel name fields env st
    | .ptrRef operand =>
      -- evalPointerReference: the operand must be a bare identifier, and
      -- Resolve locates the defining scope
      match operand with
      | .ident x =>
        match resolveVar st env x with
        | some d => .ok (.pointer x d) st
        | none => .ok (.error ("identifier not found: " ++ x)) st
      | _ => .ok (.error "can only point to identifier") st
    | .ptrDeref operand => evalPointerDereference fuel operand env st

termination_by structural fuel => fuel

/-- Eval (evaluator.go), statement cases. -/
def evalStmt : Nat → Stmt → Nat → State → EvalResult
  | 0, _, _, _ => .fuelOut
  | fuel + 1, s, env, st =>
    match s with
    | .assign name value =>
      match evalExpr fuel value env st with
      | .ok v st1 =>
        if isError v then .ok v st1 else .ok v (setVar st1 env name v)
      | other => other
    | .ptrAssign name value => evalPointerAssignment fuel name value env st
    | .ret value =>
      match evalExpr fuel value env st with
      | .ok v st1 =>
        if isError v then .ok v st1 else .ok (.returnValue v) st1
      | other => other
    | .exprStmt e => evalExpr fuel e env st
    | .blockStmt stmts => evalBlockStatement fuel stmts env st
    | .loop cond body => evalLoopStatement fuel cond body env st
    | .rangeLoop _ _ _ =>
      -- the Eval switch in evaluator.go has no case for
      -- *ast.RangeLoopStatement: control falls through to the final
      -- `return NULL` without evaluating the iterable or the body
      .ok .null st
    | .structDef name fields =>
      -- evalStructDefinition
      .ok .null (setVar st env name (.structDefO name fields))
    | .tryCatch tryB catchB finB =>
      evalTryCatchStatement fuel tryB catchB finB env st

termination_by structural fuel => fuel

/-- evalProgram (evaluator.go): unwraps a ReturnValue, stops on Error,
otherwise delivers the value of the last statement.  For an empty program
the Go function returns the nil interface; no claim evaluates one, and the
embedding returns NULL there. -/
def evalProgram : Nat → List Stmt → Nat → State → EvalResult
  | 0, _, _, _ => .fuelOut
  | fuel + 1, stmts, env, st =>
    match stmts with
    | [] => .ok .null st
    | s :: rest =>
      match evalStmt fuel s env st with
      | .ok v st1 =>
        match v with
        | .returnValue rv => .ok rv st1
        | .error m => .ok (.error m) st1
        | _ =>
          if rest.isEmpty then .ok v st1 else evalProgram fuel rest env st1
      | other => other

termination_by structural fuel => fuel

/-- evalBlockStatement (evaluator.go): NULL for the empty block, early exit
on a RETURN_VALUE or ERROR type tag, otherwise the last result. -/
def evalBlockStatement : Nat → List Stmt → Nat → State → EvalResult
  | 0, _, _, _ => .fuelOut
  | fuel + 1, stmts, env, st =>
    match stmts with
    | [] => .ok .null st
    | s :: rest =>
      match evalStmt fuel s env st with
      | .ok v st1 =>
        if objType v = "RETURN_VALUE" ∨ objType v = "ERROR" then .ok v st1
        else if rest.isEmpty then .ok v st1
        else evalBlockStatement fuel rest env st1
      | other => other

termination_by structural fuel => fuel

/-- evalLoopStatement (evaluator.go): while loop sharing the enclosing
scope; Return and Error interrupt. -/
def evalLoopStatement : Nat → Expr → List Stmt → Nat → State → EvalResult
  | 0, _, _, _, _ => .fuelOut
  | fuel + 1, cond, body, env, st =>
    match evalExpr fuel cond env st with
    | .ok c st1 =>
      if isError c then .ok c st1
      else if !(isTruthy c) then .ok .null st1
      else
        match evalBlockStatement fuel body env st1 with
        | .ok r st2 =>
          if objType r = "RETURN_VALUE" ∨ objType r = "ERROR" then .ok r st2
          else evalLoopStatement fuel cond body env st2
        | other => other
    | other => other

termination_by structural fuel => fuel

/-- evalTryCatchStatement (evaluator.go): the try block runs in a fresh
enclosed scope; on an Error result the catch block (if any) runs in a fresh
scope and its result is returned, else NULL is returned — in both error
branches the function returns before reaching the finally check, so the
finally block runs only when the try block did not produce an Error. -/
def evalTryCatchStatement :
    Nat → List Stmt → Option (List Stmt) → Option (List Stmt) → Nat → State → EvalResult
  | 0, _, _, _, _, _ => .fuelOut
  | fuel + 1, tryB, catchB, finB, env, st =>
    match newEnclosedEnvironment st env with
    | (st1, tryEnv) =>
      match evalBlockStatement fuel tryB tryEnv st1 with
      | .ok result st2 =>
        if isError result then
          match catchB with
          | some cb =>
            match newEnclosedEnvironment st2 env with
            | (st3, catchEnv) => evalBlockStatement fuel cb catchEnv st3
          | none => .ok .null st2
        else
          match finB with
          | some fb =>
            match newEnclosedEnvironment st2 env with
            | (st3, finEnv) =>
              match evalBlockStatement fuel fb finEnv st3 with
              | .ok _ st4 => .ok result st4
              | other => other
          | none => .ok result st2
      | other => other

termination_by structural fuel => fuel

/-- evalIfExpression (evaluator.go): the chosen branch runs in a fresh
enclosed scope (allocated before branching, as in the source). -/
def evalIfExpression :
    Nat → Expr → List Stmt → Option (List Stmt) → Nat → State → EvalResult
  | 0, _, _, _, _, _ => .fuelOut
  | fuel + 1, cond, cons, alt, env, st =>
    match evalExpr fuel cond env st with
    | .ok c st1 =>
      if isError c then .ok c st1
      else
        match newEnclosedEnvironment st1 env with
        | (st2, scopedEnv) =>
          if isTruthy c then evalBlockStatement fuel cons scopedEnv st2
          else
            match alt with
            | some ab => evalBlockStatement fuel ab scopedEnv st2
            | none => .ok .null st2
    | other => other

termination_by structural fuel => fuel

/-- evalPointerAssignment (evaluator.go): the name must denote a Pointer in
scope; the right-hand side is evaluated and written into the scope the
Pointer records. -/
def evalPointerAssignment : Nat → String → Expr → Nat → State → EvalResult
  | 0, _, _, _, _ => .fuelOut
  | fuel + 1, name, value, env, st =>
    match getVar st env name with
    | none => .ok (.error ("identifier not found: " ++ name)) st
    | some p =>
      match p with
      | .pointer pname penv =>
        match evalExpr fuel value env st with
        | .ok v st1 =>
          if isError v then .ok v st1
          else .ok v (setVar st1 penv pname v)
        | other => other
      | _ => .ok (.error ("\x27" ++ name ++ "\x27 is not a pointer")) st

termination_by structural fuel => fuel

/-- evalPointerDereference (evaluator.go): reads through the scope recorded
in the Pointer. -/
def evalPointerDereference : Nat → Expr → Nat → State → EvalResult
  | 0, _, _, _ => .fuelOut
  | fuel + 1, operand, env, st =>
    match evalExpr fuel operand env st with
    | .ok v st1 =>
      if isError v then .ok v st1
      else
        match v with
        | .pointer name penv =>
          match getVar st1 penv name with
          | some tv => .ok tv st1
          | none => .ok (.error ("dangling pointer: " ++ name)) st1
        | _ => .ok (.error "cannot dereference non-pointer") st1
    | other => other

termination_by structural fuel => fuel

/-- evalFieldAccess (evaluator.go). -/
def evalFieldAccess : Nat → Expr → String → Nat → State → EvalResult
  | 0, _, _, _, _ => .fuelOut
  | fuel + 1, obj, field, env, st =>
    match evalExpr fuel obj env st with
    | .ok l st1 =>
      if isError l then .ok l st1
      else
        match l with
        | .structInstO dn _ flds =>
          match mapGetStr flds field with
          | some v => .ok v st1
          | none => .ok (.error ("struct " ++ dn ++ " has no field " ++ field)) st1
        | _ => .ok (.error ("not a struct instance: " ++ objType l)) st1
    | other => other

termination_by structural fuel => fuel

/-- evalStructInstantiation (evaluator.go): the name must denote a
StructDefinition; declared fields are initialised to NULL and the provided
fields are then written over them (see `evalStructFields`). -/
def evalStructInstantiation :
    Nat → String → List (String × Expr) → Nat → State → EvalResult
  | 0, _, _, _, _ => .fuelOut
  | fuel + 1, name, fields, env, st =>
    match getVar st env name with
    | none => .ok (.error ("unknown struct: " ++ name)) st
    | some obj =>
      match obj with
      | .structDefO dn df =>
        evalStructFields fuel fields dn df (df.map (fun f => (f, Obj.null))) env st
      | _ => .ok (.error (name ++ " is not a struct")) st

termination_by structural fuel => fuel

/-- Field loop of evalStructInstantiation (evaluator.go): evaluates each
provided value and writes it into the map under the provided name, whether
or not that name is declared by the definition. -/
def evalStructFields :
    Nat → List (String × Expr) → String → List String →
    List (String × Obj) → Nat → State → EvalResult
  | 0, _, _, _, _, _, _ => .fuelOut
  | fuel + 1, fields, dn, df, acc, env, st =>
    match fields with
    | [] => .ok (.structInstO dn df acc) st
    | (fname, fexpr) :: rest =>
      match evalExpr fuel fexpr env st with
      | .ok v st1 =>
        if isError v then .ok v st1
        else evalStructFields fuel rest dn df (mapSetStr acc fname v) env st1
      | other => other

termination_by structural fuel => fuel

/-- evalExpressions (evaluator.go): left-to-right, and on the first Error
the result is the one-element list holding it. -/
def evalExpressions : Nat → List Expr → Nat → State → ListResult
  | 0, _, _, _ => .fuelOut
  | fuel + 1, exps, env, st =>
    match exps with
    | [] => .ok [] st
    | e :: rest =>
      match evalExpr fuel e env st with
      | .ok v st1 =>
        if isError v then .ok [v] st1
        else
          match evalExpressions fuel rest env st1 with
          | .ok vs st2 => .ok (v :: vs) st2
          | .hostPanic => .hostPanic
          | .fuelOut => .fuelOut
      | .hostPanic => .hostPanic
      | .fuelOut => .fuelOut

termination_by structural fuel => fuel

/-- applyFunction (evaluator.go): only Function values are callable; the
call body runs in a scope enclosing the captured environment, and a
terminal ReturnValue is unwrapped.  Builtin values are rejected with the
not-a-function error because the type assertion admits only `*Function`. -/
def applyFunction : Nat → Obj → List Obj → State → EvalResult
  | 0, _, _, _ => .fuelOut
  | fuel + 1, f, args, st =>
    match f with
    | .function params body fenv =>
      match newEnclosedEnvironment st fenv with
      | (st1, callEnv) =>
        match evalBlockStatement fuel body callEnv (bindParams st1 callEnv params args) with
        | .ok v st2 =>
          match v with
          | .returnValue rv => .ok rv st2
          | _ => .ok v st2
        | other => other
    | _ => .ok (.error ("not a function: " ++ objType f)) st
termination_by structural fuel => fuel
end

/-- Value projection of an evaluation outcome. -/
def resValue : EvalResult → Option Obj
  | .ok v _ => some v
  | _ => none

/-- Reads a variable from the heap an evaluation produced. -/
def getAfter (r : EvalResult) (e : Nat) (name : String) : Option Obj :=
  match r with
  | .ok _ st => getVar st e name
  | _ => none

/-! ## Parser fragment (parser/parser.go)

The precedence table is embedded in full.  The Pratt parser is embedded for
the expression sub-grammar over this token alphabet: identifier and integer
prefixes, prefix minus, grouping, all word infix operators, calls, index
and field access.  Prefix forms whose tokens lie outside this alphabet
(string, bool, nil and pointer tokens, `if`, `takes`, `[`, `{`) are not
registered here, and the struct-instantiation lookahead inside
parseIdentifier cannot fire because `{` is outside the alphabet; none of
them can occur in the inputs of the theorems below.  A Go parse error
(recorded in the error list, with a nil node returned) is modelled as a
`none` result. -/

/-- Token kinds of the embedded alphabet (token package). -/
inductive Tok where
  | identT (lit : String)
  | intT (v : Int)
  | equalsT
  | notEqualsT
  | lessT
  | greaterT
  | lessEqualT
  | greaterEqualT
  | addsT
  | subtractsT
  | minusT
  | timesT
  | dividesT
  | moduloT
  | lparenT
  | rparenT
  | lbracketT
  | rbracketT
  | dotT
  | commaT
  | andT
  | orT
  | eofT
deriving DecidableEq, Repr

/-- Precedence levels (parser.go `iota` block): LOWEST = 1 through
INDEX = 8. -/
def LOWEST : Nat := 1

/-- Precedence level of `equals`, `not_equals`, in parser.go. -/
def EQUALS : Nat := 2

/-- Precedence level of the comparison operators in parser.go. -/
def LESSGREATER : Nat := 3

/-- Precedence level of additive operators in parser.go. -/
def SUM : Nat := 4

/-- Precedence level of multiplicative operators in parser.go. -/
def PRODUCT : Nat := 5

/-- Precedence level of prefix operators in parser.go. -/
def PREFIXP : Nat := 6

/-- Precedence level of a call in parser.go. -/
def CALLP : Nat := 7

/-- Precedence level of index and field access in parser.go. -/
def INDEXP : Nat := 8

/-- precedences (parser.go): the complete table; token kinds not listed
have no entry. -/
def precedences : Tok → Option Nat
  | .equalsT => some EQUALS
  | .notEqualsT => some EQUALS
  | .lessT => some LESSGREATER
  | .greaterT => some LESSGREATER
  | .lessEqualT => some LESSGREATER
  | .greaterEqualT => some LESSGREATER
  | .addsT => some SUM
  | .subtractsT => some SUM
  | .minusT => some SUM
  | .timesT => some PRODUCT
  | .dividesT => some PRODUCT
  | .moduloT => some PRODUCT
  | .lparenT => some CALLP
  | .lbracketT => some INDEXP
  | .dotT => some INDEXP
  | .andT => some LESSGREATER
  | .orT => some LESSGREATER
  | _ => none

/-- Literal text the lexer attaches to each token, used by the parser for
`InfixExpression.Operator` and `PrefixExpression.Operator`.  (`minusT`
stands for the word spelling; the symbol spelling `-` lexes to the same
kind and only changes the stored string.) -/
def tokLit : Tok → String
  | .identT lit => lit
  | .intT _ => ""
  | .equalsT => "equals"
  | .notEqualsT => "not_equals"
  | .lessT => "less"
  | .greaterT => "greater"
  | .lessEqualT => "less_equal"
  | .greaterEqualT => "greater_equal"
  | .addsT => "adds"
  | .subtractsT => "subtracts"
  | .minusT => "minus"
  | .timesT => "times"
  | .dividesT => "divides"
  | .moduloT => "modulo"
  | .lparenT => "("
  | .rparenT => ")"
  | .lbracketT => "["
  | .rbracketT => "]"
  | .dotT => "."
  | .commaT => ","
  | .andT => "and"
  | .orT => "or"
  | .eofT => ""

/-- Parser position: the current token plus the remaining stream (the Go
parser keeps a three-token lookahead window over the lexer; over a finite
token list this is the same as reading from the list, with `eofT` repeated
past the end). -/
structure PState where
  cur : Tok
  rest : List Tok

/-- Parser initialisation (parser.go `New` fills the lookahead buffer and
shifts once, leaving the first token as current). -/
def pInit (toks : List Tok) : PState :=
  ⟨toks.headD .eofT, toks.tail⟩

/-- peekTokens[0] of parser.go. -/
def peekTok (st : PState) : Tok := st.rest.headD .eofT

/-- nextToken (parser.go): shifts the window forward. -/
def pAdvance (st : PState) : PState :=
  ⟨st.rest.headD .eofT, st.rest.tail⟩

/-- peekPrecedence (parser.go): table entry of the next token, defaulting
to LOWEST. -/
def peekPrecedence (st : PState) : Nat :=
  (precedences (peekTok st)).getD LOWEST

/-- curPrecedence (parser.go). -/
def curPrecedence (st : PState) : Nat :=
  (precedences st.cur).getD LOWEST

/-- Membership of the infix registry (parser.go `registerInfix` calls):
all word operators plus `(`, `[` and `.`. -/
def hasInfixFn : Tok → Bool
  | .equalsT | .notEqualsT | .lessT | .greaterT | .lessEqualT | .greaterEqualT
  | .addsT | .subtractsT | .minusT | .timesT | .dividesT | .moduloT
  | .andT | .orT | .lparenT | .lbracketT | .dotT => true
  | _ => false

mutual
/-- parseExpression (parser.go): prefix dispatch followed by the
precedence-climbing loop. -/
def parseExpression : Nat → Nat → PState → Option Expr × PState
  | 0, _, st => (none, st)
  | fuel + 1, prec, st =>
    match parsePrefixDispatch fuel st with
    | (none, st1) => (none, st1)
    | (some leftExp, st1) => parseInfixLoop fuel prec leftExp st1

termination_by structural fuel => fuel

/-- Registered prefix parse functions (parser.go `registerPrefix`), for the
embedded alphabet: parseIdentifier, parseIntegerLiteral,
parsePrefixExpression (minus) and parseGroupedExpression.  An unregistered
token is the no-prefix-parse-function error. -/
def parsePrefixDispatch : Nat → PState → Option Expr × PState
  | 0, st => (none, st)
  | fuel + 1, st =>
    match st.cur with
    | .identT name => (some (.ident name), st)
    | .intT v => (some (.intLit v), st)
    | .minusT =>
      match parseExpression fuel PREFIXP (pAdvance st) with
      | (some right, st2) => (some (.prefixE (tokLit .minusT) right), st2)
      | (none, st2) => (none, st2)
    | .lparenT =>
      match parseExpression fuel LOWEST (pAdvance st) with
      | (some e, st2) =>
        if peekTok st2 = .rparenT then (some e, pAdvance st2) else (none, st2)
      | (none, st2) => (none, st2)
    | _ => (none, st)

termination_by structural fuel => fuel

/-- Loop body of parseExpression (parser.go): while the peek token is not
EOF and the precedence argument is below the peek precedence, shift onto
the operator and apply its registered infix function. -/
def parseInfixLoop : Nat → Nat → Expr → PState → Option Expr × PState
  | 0, _, _, st => (none, st)
  | fuel + 1, prec, leftExp, st =>
    if peekTok st = .eofT then (some leftExp, st)
    else if ¬ prec < peekPrecedence st then (some leftExp, st)
    else if hasInfixFn (peekTok st) then
      match parseInfixStep fuel leftExp (pAdvance st) with
      | (some left2, st2) => parseInfixLoop fuel prec left2 st2
      | (none, st2) => (none, st2)
    else (some leftExp, st)

termination_by structural fuel => fuel

/-- Dispatch to the registered infix function of the operator now current:
parseCallExpression for `(`, parseIndexExpression for `[`,
parseFieldAccessExpression for `.`, parseInfixExpression otherwise. -/
def parseInfixStep : Nat → Expr → PState → Option Expr × PState
  | 0, _, st => (none, st)
  | fuel + 1, leftExp, st =>
    match st.cur with
    | .lparenT =>
      match parseExpressionList fuel .rparenT st with
      | (some args, st1) => (some (.call leftExp args), st1)
      | (none, st1) => (none, st1)
    | .lbracketT =>
      match parseExpression fuel LOWEST (pAdvance st) with
      | (some idx, st2) =>
        if peekTok st2 = .rbracketT then (some (.indexE leftExp idx), pAdvance st2)
        else (none, st2)
      | (none, st2) => (none, st2)
    | .dotT =>
      match peekTok st with
      | .identT f => (some (.fieldAccess leftExp f), pAdvance st)
      | _ => (none, st)
    | tok =>
      match parseExpression fuel (curPrecedence st) (pAdvance st) with
      | (some right, st2) => (some (.infixE (tokLit tok) leftExp right), st2)
      | (none, st2) => (none, st2)

termination_by structural fuel => fuel

/-- parseExpressionList / parseCallArguments (parser.go, two textually
identical loops): the current token is the opener; an immediate closer
yields the empty list, otherwise expressions separated by commas. -/
def parseExpressionList : Nat → Tok → PState → Option (List Expr) × PState
  | 0, _, st => (none, st)
  | fuel + 1, endTok, st =>
    if peekTok st = endTok then (some [], pAdvance st)
    else
      match parseExpression fuel LOWEST (pAdvance st) with
      | (some e, st2) => parseListRest fuel endTok [e] st2
      | (none, st2) => (none, st2)

termination_by structural fuel => fuel

/-- Comma loop of parseExpressionList, accumulating parsed elements; the
final `expectPeek` of the closer fails as `none`. -/
def parseListRest : Nat → Tok → List Expr → PState → Option (List Expr) × PState
  | 0, _, _, st => (none, st)
  | fuel + 1, endTok, acc, st =>
    if peekTok st = .commaT then
      match parseExpression fuel LOWEST (pAdvance (pAdvance st)) with
      | (some e, st2) => parseListRest fuel endTok (acc ++ [e]) st2
      | (none, st2) => (none, st2)
    else if peekTok st = endTok then (some acc, pAdvance st)
    else (none, st)
termination_by structural fuel => fuel
end

/-! ## Helper lemmas about the environment heap -/

theorem isSome_get?_iff {α : Type} (l : List α) (n : Nat) :
    (l[n]?).isSome ↔ n < l.length := by
  constructor
  · intro h
    by_contra hlt
    rw [List.getElem?_eq_none (by omega)] at h
    simp at h
  · intro h
    rw [List.getElem?_eq_getElem h]
    simp

theorem setVar_length (st : State) (e : Nat) (n : String) (v : Obj) :
    (setVar st e n v).length = st.length := by
  rw [setVar]
  cases st[e]? with
  | none => rfl
  | some ed => simp

theorem resolveVarAux_isSome (st : State) :
    ∀ fuel e x d, resolveVarAux st fuel e x = some d → (st[d]?).isSome := by
  intro fuel
  induction fuel with
  | zero =>
    intro e x d h
    simp [resolveVarAux] at h
  | succ n ih =>
    intro e x d h
    rw [resolveVarAux] at h
    cases hge : st[e]? with
    | none => rw [hge] at h; simp at h
    | some ed =>
      rw [hge] at h
      by_cases hm : (mapGetStr ed.store x).isSome
      · simp only [hm, if_true] at h
        cases h
        rw [hge]
        rfl
      · simp only [hm, Bool.false_eq_true, if_false] at h
        cases ho : ed.outer with
        | none => rw [ho] at h; simp at h
        | some o =>
          rw [ho] at h
          exact ih o x d h

theorem resolveVar_isSome (st : State) (e : Nat) (x : String) (d : Nat)
    (h : resolveVar st e x = some d) : (st[d]?).isSome :=
  resolveVarAux_isSome st (st.length + 1) e x d h

theorem getVar_setVar_self (st : State) (d : Nat) (x : String) (v : Obj)
    (h : (st[d]?).isSome) :
    getVar (setVar st d x v) d x = some v := by
  obtain ⟨ed, hed⟩ := Option.isSome_iff_exists.mp h
  have hd : d < st.length := (isSome_get?_iff st d).mp h
  have hset : setVar st d x v = st.set d ⟨mapSetStr ed.store x v, ed.outer⟩ := by
    rw [setVar, hed]
  rw [hset]
  have hget : (st.set d ⟨mapSetStr ed.store x v, ed.outer⟩)[d]?
      = some ⟨mapSetStr ed.store x v, ed.outer⟩ := by
    rw [List.getElem?_set_self', List.getElem?_eq_getElem hd]
    rfl
  rw [getVar, getVarAux, hget]
  simp [mapSetStr, mapGetStr]

theorem setVar_isSome_get? (st : State) (e : Nat) (n : String) (v : Obj) (d : Nat)
    (h : (st[d]?).isSome) : ((setVar st e n v)[d]?).isSome := by
  rw [isSome_get?_iff] at h ⊢
  rw [setVar_length]
  exact h

/-! ## Helper lemmas for the struct-instantiation field loop -/

theorem initFields_get (df : List String) (k : String) (hk : k ∈ df) :
    mapGetStr (df.map (fun f => (f, Obj.null))) k = some .null := by
  induction df with
  | nil => cases hk
  | cons f rest ih =>
    rw [List.map_cons, mapGetStr]
    by_cases hf : f = k
    · simp [hf]
    · rw [if_neg hf]
      apply ih
      cases hk with
      | head => exact absurd rfl hf
      | tail _ hmem => exact hmem

theorem evalStructFields_spec :
    ∀ (fields : List (String × Expr)) (fuel : Nat) (dn : String) (df : List String)
      (acc : List (String × Obj)) (env : Nat) (st : State)
      (dn2 : String) (df2 : List String) (flds : List (String × Obj)) (st2 : State),
      evalStructFields fuel fields dn df acc env st = .ok (.structInstO dn2 df2 flds) st2 →
      dn2 = dn ∧ df2 = df
      ∧ (∀ k, k ∈ flds.map Prod.fst → k ∈ acc.map Prod.fst ∨ k ∈ fields.map Prod.fst)
      ∧ (∀ k, k ∉ fields.map Prod.fst → mapGetStr flds k = mapGetStr acc k) := by
  intro fields
  induction fields with
  | nil =>
    intro fuel dn df acc env st dn2 df2 flds st2 h
    cases fuel with
    | zero => simp [evalStructFields] at h
    | succ n =>
      rw [evalStructFields] at h
      cases h
      exact ⟨rfl, rfl, fun k hk => Or.inl hk, fun k _ => rfl⟩
  | cons fe rest ih =>
    obtain ⟨fname, fexpr⟩ := fe
    intro fuel dn df acc env st dn2 df2 flds st2 h
    cases fuel with
    | zero => simp [evalStructFields] at h
    | succ n =>
      rw [evalStructFields] at h
      cases hev : evalExpr n fexpr env st with
      | ok v st1 =>
        rw [hev] at h
        dsimp only [] at h
        cases hv : isError v with
        | true =>
          rw [hv] at h
          simp only [if_true] at h
          cases h
          rw [isError, objType] at hv
          simp at hv
        | false =>
          rw [hv] at h
          simp only [Bool.false_eq_true, if_false] at h
          obtain ⟨hdn, hdf, hsub, hget⟩ :=
            ih n dn df (mapSetStr acc fname v) env st1 dn2 df2 flds st2 h
          refine ⟨hdn, hdf, ?_, ?_⟩
          · intro k hk
            rcases hsub k hk with hin | hin
            · rw [mapSetStr, List.map_cons] at hin
              cases hin with
              | head => right; exact List.mem_cons_self _ _
              | tail _ hmem => left; exact hmem
            · right
              rw [List.map_cons]
              exact List.mem_cons_of_mem _ hin
          · intro k hk
            rw [List.map_cons, List.mem_cons, not_or] at hk
            obtain ⟨hkf, hkr⟩ := hk
            rw [hget k hkr, mapSetStr, mapGetStr]
            rw [if_neg (fun hh => hkf hh.symm)]
      | hostPanic => rw [hev] at h; dsimp only [] at h; cases h
      | fuelOut => rw [hev] at h; dsimp only [] at h; cases h

/-! ## The claims -/

/-- Claim C1 (code bug): evalIdentifier never consults the builtin
registry.  In the root environment the registry resolves `count`
(`GetBuiltin`), yet evaluating the identifier `count` yields the
identifier-not-found error, and even a Builtin value placed in the
environment cannot be called — applyFunction rejects it with the
not-a-function error.  The claim (with SYNTAX.md §12 and test_release.eq)
expects the registry to be consulted and dispatched. -/
theorem builtin_registry_never_consulted :
    GetBuiltin "count" = some (.builtin "count")
    ∧ resValue (evalExpr 2 (.ident "count") 0 initState)
      = some (.error "identifier not found: count")
    ∧ resValue (evalExpr 6 (.call (.ident "g") [.intLit 1]) 0
        [⟨[("g", .builtin "count")], none⟩])
      = some (.error "not a function: BUILTIN") :=
  ⟨rfl, rfl, rfl⟩

/-- Claim C2 (code bug): the evaluator has no case for the for-in
(range-loop) statement, so `for n in [10, 20, 30] { sum is sum adds n }`
returns NULL with the state untouched (`sum` stays `0` where the claim
demands `60`), and a non-Array iterable such as `for n in 5 {}` produces
NULL rather than the claimed runtime error. -/
theorem range_loop_unhandled :
    resValue (evalStmt 4
      (.rangeLoop "n" (.arrayLit [.intLit 10, .intLit 20, .intLit 30])
        [.assign "sum" (.infixE "adds" (.ident "sum") (.ident "n"))]) 0
      [⟨[("sum", .integer 0)], none⟩]) = some .null
    ∧ getAfter (evalStmt 4
      (.rangeLoop "n" (.arrayLit [.intLit 10, .intLit 20, .intLit 30])
        [.assign "sum" (.infixE "adds" (.ident "sum") (.ident "n"))]) 0
      [⟨[("sum", .integer 0)], none⟩]) 0 "sum" = some (.integer 0)
    ∧ resValue (evalStmt 3 (.rangeLoop "n" (.intLit 5) []) 0 initState) = some .null :=
  ⟨rfl, rfl, rfl⟩

/-- Claim C3 (code bug): evalTryCatchStatement returns from both error
branches before the finally check, so a finally block runs only when the
try block did not produce an Error.  In the program
`x is 50; p is pointing to x; try { 5 adds true } catch {} finally
{ pointing from p is 99 }` the pointer write in the finally block never
happens and `x` stays `50`; with a non-failing try block the same finally
block does run and `x` becomes `99`. -/
theorem finally_skipped_on_error :
    resValue (evalProgram 14
      [.assign "x" (.intLit 50),
       .assign "p" (.ptrRef (.ident "x")),
       .tryCatch [.exprStmt (.infixE "adds" (.intLit 5) (.boolLit true))]
                 (some [])
                 (some [.ptrAssign "p" (.intLit 99)])] 0 initState) = some .null
    ∧ getAfter (evalProgram 14
      [.assign "x" (.intLit 50),
       .assign "p" (.ptrRef (.ident "x")),
       .tryCatch [.exprStmt (.infixE "adds" (.intLit 5) (.boolLit true))]
                 (some [])
                 (some [.ptrAssign "p" (.intLit 99)])] 0 initState) 0 "x"
      = some (.integer 50)
    ∧ getAfter (evalProgram 14
      [.assign "x" (.intLit 50),
       .assign "p" (.ptrRef (.ident "x")),
       .tryCatch [.exprStmt (.intLit 1)]
                 (some [])
                 (some [.ptrAssign "p" (.intLit 99)])] 0 initState) 0 "x"
      = some (.integer 99) :=
  ⟨rfl, rfl, rfl⟩

/-- Claim C4 (code bug): the precedences table assigns `and`/`or` the
LESSGREATER level — the same level as the comparison operators, not the
EQUALS level the claim states — and therefore
`a less b and c greater d` parses left-associatively as
`(((a less b) and c) greater d)`, not as the claimed
`((a less b) and (c greater d))`. -/
theorem and_or_precedence :
    precedences .andT = some LESSGREATER
    ∧ precedences .orT = some LESSGREATER
    ∧ precedences .lessT = some LESSGREATER
    ∧ precedences .greaterT = some LESSGREATER
    ∧ precedences .equalsT = some EQUALS
    ∧ precedences .andT ≠ some EQUALS
    ∧ (parseExpression 30 LOWEST (pInit
        [.identT "a", .lessT, .identT "b", .andT, .identT "c", .greaterT, .identT "d"])).1
      = some (.infixE "greater"
          (.infixE "and" (.infixE "less" (.ident "a") (.ident "b")) (.ident "c"))
          (.ident "d"))
    ∧ (Expr.infixE "greater"
          (.infixE "and" (.infixE "less" (.ident "a") (.ident "b")) (.ident "c"))
          (.ident "d"))
      ≠ (Expr.infixE "and" (.infixE "less" (.ident "a") (.ident "b"))
          (.infixE "greater" (.ident "c") (.ident "d"))) :=
  ⟨rfl, rfl, rfl, rfl, rfl, by decide, rfl, by simp⟩

/-- Claim C5, counterexample: instantiating `S` (declared with the single
field `a`) as `S { zz: 1 }` stores the undeclared field `zz`, so the
instance field set is not a subset of the declared fields. -/
theorem struct_instance_extra_field :
    resValue (evalExpr 5 (.structInst "S" [("zz", .intLit 1)]) 0
        [⟨[("S", .structDefO "S" ["a"])], none⟩])
      = some (.structInstO "S" ["a"] [("zz", .integer 1), ("a", .null)])
    ∧ "zz" ∈ ([("zz", Obj.integer 1), ("a", Obj.null)].map Prod.fst)
    ∧ "zz" ∉ (["a"] : List String) := by
  refine ⟨rfl, by decide, by decide⟩

/-- Claim C5 (amended): every field key of a struct instance produced by
evaluating a struct instantiation is either declared by the definition or
one of the explicitly provided field names (undeclared provided names are
stored as extra fields), and every declared field not given a value at
construction is bound to Null. -/
theorem struct_instantiation_fields
    (fuel : Nat) (name : String) (fields : List (String × Expr)) (env : Nat)
    (st st2 : State) (dn : String) (df : List String) (flds : List (String × Obj))
    (h : evalExpr fuel (.structInst name fields) env st
      = .ok (.structInstO dn df flds) st2) :
    (∀ k, k ∈ flds.map Prod.fst → k ∈ df ∨ k ∈ fields.map Prod.fst)
    ∧ (∀ k, k ∈ df → k ∉ fields.map Prod.fst → mapGetStr flds k = some .null) := by
  cases fuel with
  | zero => simp [evalExpr] at h
  | succ n =>
    rw [evalExpr] at h
    cases n with
    | zero => simp [evalStructInstantiation] at h
    | succ m =>
      rw [evalStructInstantiation] at h
      cases hg : getVar st env name with
      | none => rw [hg] at h; dsimp only [] at h; cases h
      | some obj =>
        rw [hg] at h
        dsimp only [] at h
        cases obj <;> try (cases h)
        case structDefO dn0 df0 =>
          obtain ⟨hdn, hdf, hsub, hget⟩ :=
            evalStructFields_spec fields m dn0 df0
              (df0.map fun f => (f, Obj.null)) env st dn df flds st2 h
          subst hdn
          subst hdf
          constructor
          · intro k hk
            rcases hsub k hk with hin | hin
            · left
              simpa using hin
            · right; exact hin
          · intro k hkdf hkf
            rw [hget k hkf]
            exact initFields_get _ k hkdf

/-- Witness for claim C5: `S` declared with fields `a, b`, instantiated as
`S { a: 1 }`; the declared but unprovided field `b` is bound to Null. -/
theorem struct_instantiation_fields_wit :
    evalExpr 5 (.structInst "S" [("a", .intLit 1)]) 0
        [⟨[("S", .structDefO "S" ["a", "b"])], none⟩]
      = .ok (.structInstO "S" ["a", "b"] [("a", .integer 1), ("a", .null), ("b", .null)])
          [⟨[("S", .structDefO "S" ["a", "b"])], none⟩]
    ∧ mapGetStr [("a", Obj.integer 1), ("a", Obj.null), ("b", Obj.null)] "b"
      = some .null := by
  refine ⟨rfl, ?_⟩
  exact (struct_instantiation_fields 5 "S" [("a", .intLit 1)] 0
    [⟨[("S", .structDefO "S" ["a", "b"])], none⟩]
    [⟨[("S", .structDefO "S" ["a", "b"])], none⟩]
    "S" ["a", "b"] [("a", .integer 1), ("a", .null), ("b", .null)] rfl).2
    "b" (by decide) (by decide)

/-- Claim C6: after `p is pointing to x`, executed in a scope where `x`
resolves to the defining scope `d`, a later `pointing from p is v` executed
from any scope that still sees that pointer — however many shadowing
bindings of `x` lie in between — writes through the recorded scope, so
reading `x` in its defining scope yields `v`. -/
theorem pointer_reach_through
    (st : State) (e0 e1 d : Nat) (x p : String) (v : Int) (fuel : Nat)
    (hres : resolveVar st e0 x = some d)
    (hsee : getVar (setVar st e0 p (.pointer x d)) e1 p = some (.pointer x d)) :
    evalStmt (fuel + 3) (.assign p (.ptrRef (.ident x))) e0 st
      = .ok (.pointer x d) (setVar st e0 p (.pointer x d))
    ∧ evalStmt (fuel + 3) (.ptrAssign p (.intLit v)) e1 (setVar st e0 p (.pointer x d))
      = .ok (.integer v)
          (setVar (setVar st e0 p (.pointer x d)) d x (.integer v))
    ∧ getVar (setVar (setVar st e0 p (.pointer x d)) d x (.integer v)) d x
      = some (.integer v) := by
  have hexpr : evalExpr (fuel + 2) (.ptrRef (.ident x)) e0 st = .ok (.pointer x d) st := by
    rw [evalExpr, hres]
  refine ⟨?_, ?_, ?_⟩
  · rw [evalStmt, hexpr]
    simp [isError, objType]
  · rw [evalStmt, evalPointerAssignment, hsee]
    simp [isError, objType, evalExpr]
  · have hd : ((setVar st e0 p (.pointer x d))[d]?).isSome :=
      setVar_isSome_get? st e0 p (.pointer x d) d (resolveVar_isSome st e0 x d hres)
    exact getVar_setVar_self _ d x (.integer v) hd

/-- Witness for claim C6: `x` defined as 50 in the root scope and shadowed
by 999 in an inner scope; the pointer is created in the root scope and the
pointer write of 100 is executed from the inner scope — the root binding
becomes 100 while the shadow stays 999. -/
theorem pointer_reach_through_wit :
    evalStmt 10 (.assign "p" (.ptrRef (.ident "x"))) 0
        [⟨[("x", .integer 50)], none⟩, ⟨[("x", .integer 999)], some 0⟩]
      = .ok (.pointer "x" 0)
          (setVar [⟨[("x", .integer 50)], none⟩, ⟨[("x", .integer 999)], some 0⟩]
            0 "p" (.pointer "x" 0))
    ∧ evalStmt 10 (.ptrAssign "p" (.intLit 100)) 1
        (setVar [⟨[("x", .integer 50)], none⟩, ⟨[("x", .integer 999)], some 0⟩]
          0 "p" (.pointer "x" 0))
      = .ok (.integer 100)
          (setVar
            (setVar [⟨[("x", .integer 50)], none⟩, ⟨[("x", .integer 999)], some 0⟩]
              0 "p" (.pointer "x" 0))
            0 "x" (.integer 100))
    ∧ getVar
        (setVar
          (setVar [⟨[("x", .integer 50)], none⟩, ⟨[("x", .integer 999)], some 0⟩]
            0 "p" (.pointer "x" 0))
          0 "x" (.integer 100)) 0 "x"
      = some (.integer 100)
    ∧ getVar
        (setVar
          (setVar [⟨[("x", .integer 50)], none⟩, ⟨[("x", .integer 999)], some 0⟩]
            0 "p" (.pointer "x" 0))
          0 "x" (.integer 100)) 1 "x"
      = some (.integer 999) := by
  have h := pointer_reach_through
    [⟨[("x", .integer 50)], none⟩, ⟨[("x", .integer 999)], some 0⟩]
    0 1 0 "x" "p" 100 7 rfl rfl
  exact ⟨h.1, h.2.1, h.2.2, rfl⟩

/-- Claim C7: when the operand types differ and one side is NULL, `equals`
evaluates to false and `not_equals` to true without an error, while every
other operator yields the type-mismatch error; when the types differ and
neither side is NULL, every operator yields the type-mismatch error. -/
theorem infix_cross_type (l r : Obj) (op : String)
    (hne : objType l ≠ objType r) :
    ((objType l = "NULL" ∨ objType r = "NULL") →
        evalInfixExpression "equals" l r = some (nativeBool false)
      ∧ evalInfixExpression "not_equals" l r = some (nativeBool true)
      ∧ (op ≠ "equals" → op ≠ "not_equals" →
          evalInfixExpression op l r = some (typeMismatch l r op)))
    ∧ (objType l ≠ "NULL" → objType r ≠ "NULL" →
        evalInfixExpression op l r = some (typeMismatch l r op)) := by
  constructor
  · intro hnull
    refine ⟨?_, ?_, ?_⟩
    · rw [evalInfixExpression, if_pos hne, if_pos hnull, if_pos rfl]
    · rw [evalInfixExpression, if_pos hne, if_pos hnull,
        if_neg (by decide : ¬ ("not_equals" = "equals")), if_pos rfl]
    · intro h1 h2
      rw [evalInfixExpression, if_pos hne, if_pos hnull, if_neg h1, if_neg h2]
  · intro h1 h2
    rw [evalInfixExpression, if_pos hne, if_neg (not_or.mpr ⟨h1, h2⟩)]

/-- Witness for claim C7: NULL beside an Integer under `equals`,
`not_equals` and `adds`, an Integer beside a String under `adds`, and a
StructDefinition beside an Integer under `adds` (exercising the
`STRUCT_DEFINITION` type tag of object.go). -/
theorem infix_cross_type_wit :
    evalInfixExpression "equals" .null (.integer 1) = some (nativeBool false)
    ∧ evalInfixExpression "not_equals" .null (.integer 1) = some (nativeBool true)
    ∧ evalInfixExpression "adds" .null (.integer 1)
      = some (.error "type mismatch: NULL adds INTEGER")
    ∧ evalInfixExpression "adds" (.integer 1) (.str "s")
      = some (.error "type mismatch: INTEGER adds STRING")
    ∧ evalInfixExpression "adds" (.structDefO "S" ["a"]) (.integer 1)
      = some (.error "type mismatch: STRUCT_DEFINITION adds INTEGER") := by
  have h1 := infix_cross_type .null (.integer 1) "adds" (by decide)
  have h2 := infix_cross_type (.integer 1) (.str "s") "adds" (by decide)
  have h3 := infix_cross_type (.structDefO "S" ["a"]) (.integer 1) "adds" (by decide)
  obtain ⟨ha, hb, hc⟩ := h1.1 (Or.inl rfl)
  exact ⟨ha, hb, hc (by decide) (by decide), h2.2 (by decide) (by decide),
    h3.2 (by decide) (by decide)⟩

/-- Claim C8: Integer division yields the division-by-zero error exactly
when the divisor is zero, and otherwise the truncated quotient under the
64-bit semantics of the host integers; the program `10 divides 0`
evaluates end to end to the Error with that message. -/
theorem int_div_guard (a b : Int) :
    (evalIntegerInfix "divides" a b = some (.error "division by zero") ↔ b = 0)
    ∧ (b ≠ 0 →
        evalIntegerInfix "divides" a b = some (.integer (wrap64 (Int.tdiv a b))))
    ∧ resValue (evalProgram 4
        [.exprStmt (.infixE "divides" (.intLit 10) (.intLit 0))] 0 initState)
      = some (.error "division by zero") := by
  have hdef : evalIntegerInfix "divides" a b
      = if b = 0 then some (.error "division by zero")
        else some (.integer (wrap64 (Int.tdiv a b))) := rfl
  refine ⟨?_, ?_, rfl⟩
  · rw [hdef]
    constructor
    · intro h
      by_contra hb
      rw [if_neg hb] at h
      simp at h
    · intro h
      rw [if_pos h]
  · intro hb
    rw [hdef, if_neg hb]

/-- Witness for claim C8: the guard fires at divisor 0 and `7 divides 2`
produces the quotient. -/
theorem int_div_guard_wit :
    evalIntegerInfix "divides" 10 0 = some (.error "division by zero")
    ∧ evalIntegerInfix "divides" 7 2 = some (.integer (wrap64 (Int.tdiv 7 2))) :=
  ⟨(int_div_guard 10 0).1.mpr rfl, (int_div_guard 7 2).2.1 (by decide)⟩

/-- Claim C9: indexing an Array with an Integer yields NULL — not an
Error — whenever the index is negative or at least the length, and the
selected element otherwise. -/
theorem array_bounds (elems : List Obj) (i : Int) :
    ((i < 0 ∨ i > (elems.length : Int) - 1) →
      evalIndexExpression (.array elems) (.integer i) = .null)
    ∧ (∀ v, 0 ≤ i → elems.get? i.toNat = some v →
      evalIndexExpression (.array elems) (.integer i) = v) := by
  have hdef : evalIndexExpression (.array elems) (.integer i)
      = evalArrayIndex elems i := rfl
  constructor
  · intro h
    rw [hdef, evalArrayIndex, if_pos h]
  · intro v h0 hget
    have hsome : (elems[i.toNat]?).isSome := by
      rw [← List.get?_eq_getElem?, hget]
      rfl
    have hlt : i.toNat < elems.length := (isSome_get?_iff elems i.toNat).mp hsome
    have hcond : ¬ (i < 0 ∨ i > (elems.length : Int) - 1) := by
      push_neg
      constructor
      · omega
      · have hcast : (i.toNat : Int) = i := Int.toNat_of_nonneg h0
        omega
    rw [hdef, evalArrayIndex, if_neg hcond, hget]
    rfl

/-- Witness for claim C9: a two-element array indexed at 5, -1 and 1. -/
theorem array_bounds_wit :
    evalIndexExpression (.array [.integer 7, .integer 8]) (.integer 5) = .null
    ∧ evalIndexExpression (.array [.integer 7, .integer 8]) (.integer (-1)) = .null
    ∧ evalIndexExpression (.array [.integer 7, .integer 8]) (.integer 1) = .integer 8 :=
  ⟨(array_bounds [.integer 7, .integer 8] 5).1 (by norm_num),
   (array_bounds [.integer 7, .integer 8] (-1)).1 (by norm_num),
   (array_bounds [.integer 7, .integer 8] 1).2 (.integer 8) (by norm_num) rfl⟩

/-- Claim C10: the Integer `modulo` operator has no zero guard: for every
`a`, evaluating `a modulo 0` does not produce an Eloquence Error value but
reaches the unguarded host remainder, a Go runtime panic (`hostPanic` in
the embedding), on every environment and heap. -/
theorem modulo_panic (a : Int) (fuel env : Nat) (st : State) :
    evalIntegerInfix "modulo" a 0 = none
    ∧ evalExpr (fuel + 2) (.infixE "modulo" (.intLit a) (.intLit 0)) env st
      = .hostPanic := by
  constructor
  · rfl
  · rfl

end Eloquence
